import Mathlib

/-!
# FlowScope flow tracker: TTL aggregate word and the flow table

A shallow embedding of `src/flowtracker.cpp` and `src/tuple.cpp`.

* Unsigned machine integers are natural numbers, reduced `% 2 ^ w` at each
  operation that can wrap.
* `std::int32_t` results of the hash index are integers.
* A `std::vector` is a list; `operator[]` is checked, and an index outside the
  vector is the fault outcome (undefined behaviour in the source).
* A function with a return type whose body ends without a `return` statement
  has the outcome `fell_off`: undefined behaviour in the source, so the call
  has neither a value nor a state after it. The outcome records the members as
  the assignments of the body left them.
* The hash index (`rte_hash`) is an external library: the tracker is
  parameterised by its operations.
-/

namespace FlowScope

/-! ## TTL aggregate (`tuple.cpp`) -/

/-- Number of values of a `std::uint64_t`. -/
def UINT64_MOD : Nat := 2 ^ 64

/-- Number of values of a `std::uint16_t`. -/
def UINT16_MOD : Nat := 2 ^ 16

/-- The constant `(1ull<<28) - 1` of `get_average_TTL`. -/
def PACKETS_MASK : Nat := (1 <<< 28) % UINT64_MOD - 1

/-- The function `get_average_TTL`: `sum = val >> 28`,
`packets = val & ((1ull<<28) - 1)`, result `sum/packets` converted to
`std::uint16_t`. The division by a zero `packets` has no result: `none`. -/
def get_average_TTL (val : Nat) : Option Nat :=
  let sum := val >>> 28
  let packets := val &&& PACKETS_MASK
  if packets = 0 then none else some ((sum / packets) % UINT16_MOD)

/-- The function `update_TTL`: `val += (uint64_t)new_ttl << 28; val += 1`,
both additions in 64-bit unsigned arithmetic. -/
def update_TTL (val : Nat) (new_ttl : Nat) : Nat :=
  let val1 := (val + (new_ttl <<< 28) % UINT64_MOD) % UINT64_MOD
  (val1 + 1) % UINT64_MOD

/-- The count field of an aggregate word: its low 28 bits. -/
def ttl_count (w : Nat) : Nat := w &&& PACKETS_MASK

/-- The sum field of an aggregate word: the word shifted right by 28. -/
def ttl_sum (w : Nat) : Nat := w >>> 28

/-! ## Flow keys and records (`flowtracker.cpp`) -/

/-- The constant `IPV6_ADDR_LEN`. -/
def IPV6_ADDR_LEN : Nat := 16

/-- The packed struct `ipv4_5tuple`. -/
structure ipv4_5tuple where
  ip_dst : Nat
  ip_src : Nat
  port_dst : Nat
  port_src : Nat
  proto : Nat
  deriving DecidableEq

/-- The packed struct `ipv6_5tuple`; the addresses are `IPV6_ADDR_LEN` bytes. -/
structure ipv6_5tuple where
  ip_dst : List Nat
  ip_src : List Nat
  port_dst : Nat
  port_src : Nat
  proto : Nat
  deriving DecidableEq

/-- The value `sizeof(ipv4_5tuple)` of the packed struct: 4 + 4 + 2 + 2 + 1. -/
def sizeof_ipv4_5tuple : Nat := 4 + 4 + 2 + 2 + 1

/-- The value `sizeof(ipv6_5tuple)` of the packed struct. -/
def sizeof_ipv6_5tuple : Nat := IPV6_ADDR_LEN + IPV6_ADDR_LEN + 2 + 2 + 1

/-- The packed struct `foo_flow_data`, the record type `D` of the C interface. -/
structure foo_flow_data where
  start_ts : Nat
  end_ts : Nat
  observed_ttl : Nat
  deriving DecidableEq

/-- A key of either address family: the argument that selects between the two
overloads of `add_flow`. -/
inductive flow_tuple where
  | ipv4 (tpl : ipv4_5tuple)
  | ipv6 (tpl : ipv6_5tuple)
  deriving DecidableEq

/-! ## The external hash index -/

/-- The hash functions a table can be configured with. -/
inductive rte_hash_function where
  | unset
  | rte_jhash
  deriving DecidableEq

/-- The fields of `rte_hash_parameters` that the constructor sets. -/
structure rte_hash_parameters where
  name : String
  entries : Nat
  key_len : Nat
  hash_func : rte_hash_function
  hash_func_init_val : Nat
  socket_id : Nat

/-- The operations of the hash index library used by the tracker, over index
states `H` and keys `K`. `rte_hash_create` yields `none` for `NULL`;
`rte_hash_add_key` yields the updated index and its `int32_t` result;
`rte_hash_lookup` only reads the index. -/
structure rte_hash_ops (H K : Type) where
  rte_hash_create : rte_hash_parameters → Option H
  rte_hash_add_key : H → K → H × Int
  rte_hash_lookup : H → K → Int

/-! ## The tracker -/

/-- The data members of `flowtracker<T>`. -/
structure flowtracker (H4 H6 T : Type) where
  ipv4_map : H4
  ipv6_map : H6
  ipv4_flowdata : List T
  ipv6_flowdata : List T
  deriving DecidableEq

/-- How a call of a value-returning member function ends. -/
inductive Outcome (σ α : Type) where
  /-- A `return` statement was executed with value `v`, the members being `st`. -/
  | returned (st : σ) (v : α)
  /-- Control reached the closing brace without a `return` statement, the
  assignments of the body having left the members as `st`. For a function with
  a return type this is undefined behaviour: the call yields no value and no
  state after it. -/
  | fell_off (st : σ)
  /-- A vector was indexed outside its bounds: undefined behaviour. -/
  | fault
  deriving DecidableEq

/-- The tracker state after a call: defined only when the call returned. -/
def Outcome.state? {σ α : Type} : Outcome σ α → Option σ
  | .returned st _ => some st
  | .fell_off _ => none
  | .fault => none

/-- The value a call returns, when a `return` statement produced one. -/
def Outcome.value? {σ α : Type} : Outcome σ α → Option α
  | .returned _ v => some v
  | .fell_off _ => none
  | .fault => none

/-- The position of `v[i]` for an `int32_t` index converted to `size_t`: the
index itself when it lies inside the vector, nothing otherwise. -/
def vec_at {T : Type} (v : List T) (i : Int) : Option Nat :=
  if 0 ≤ i ∧ i.toNat < v.length then some i.toNat else none

/-- The assignment `v[i] = x`. -/
def vec_store {T : Type} (v : List T) (i : Int) (x : T) : Option (List T) :=
  match vec_at v i with
  | some n => some (v.set n x)
  | none => none

/-- The result of `T* get_flow_data`. -/
inductive flow_ptr where
  /-- The pointer `NULL`. -/
  | null
  /-- The address `&this->ipv4_flowdata[i]`. -/
  | ipv4_slot (i : Nat)
  /-- The vector was indexed outside its bounds. -/
  | fault
  deriving DecidableEq

/-- The constructor `flowtracker(max_flows)`: both vectors get `max_flows`
value-initialised records (`zero`), then the IPv4 and the IPv6 index are
created from the same parameter block; `none` is `rte_panic`.
`socket_id` is the value of `rte_socket_id()`. -/
def flowtracker.create {H4 H6 T : Type} (ops4 : rte_hash_ops H4 ipv4_5tuple)
    (ops6 : rte_hash_ops H6 ipv6_5tuple) (socket_id : Nat) (zero : T)
    (max_flows : Nat) : Option (flowtracker H4 H6 T) :=
  let ipv4_flowdata := List.replicate max_flows zero
  let ipv6_flowdata := List.replicate max_flows zero
  let params4 : rte_hash_parameters :=
    ⟨"ipv4_flow_map", max_flows, sizeof_ipv4_5tuple, .rte_jhash, 0, socket_id⟩
  match ops4.rte_hash_create params4 with
  | none => none
  | some ipv4_map =>
    let params6 : rte_hash_parameters :=
      ⟨"ipv6_flow_map", params4.entries, sizeof_ipv6_5tuple, params4.hash_func,
        params4.hash_func_init_val, params4.socket_id⟩
    match ops6.rte_hash_create params6 with
    | none => none
    | some ipv6_map => some ⟨ipv4_map, ipv6_map, ipv4_flowdata, ipv6_flowdata⟩

/-- The overload `add_flow(const ipv4_5tuple&, const T&)`: the error branch
returns `ret`; the success branch assigns `ipv4_flowdata[ret]` and ends
without a `return` statement. -/
def add_flow_v4 {H4 H6 T : Type} (ops4 : rte_hash_ops H4 ipv4_5tuple)
    (tr : flowtracker H4 H6 T) (tpl : ipv4_5tuple) (flow_data : T) :
    Outcome (flowtracker H4 H6 T) Int :=
  let res := ops4.rte_hash_add_key tr.ipv4_map tpl
  let ret := res.2
  if ret < 0 then
    .returned ⟨res.1, tr.ipv6_map, tr.ipv4_flowdata, tr.ipv6_flowdata⟩ ret
  else
    match vec_store tr.ipv4_flowdata ret flow_data with
    | none => .fault
    | some data => .fell_off ⟨res.1, tr.ipv6_map, data, tr.ipv6_flowdata⟩

/-- The overload `add_flow(const ipv6_5tuple&, const T&)`. -/
def add_flow_v6 {H4 H6 T : Type} (ops6 : rte_hash_ops H6 ipv6_5tuple)
    (tr : flowtracker H4 H6 T) (tpl : ipv6_5tuple) (flow_data : T) :
    Outcome (flowtracker H4 H6 T) Int :=
  let res := ops6.rte_hash_add_key tr.ipv6_map tpl
  let ret := res.2
  if ret < 0 then
    .returned ⟨tr.ipv4_map, res.1, tr.ipv4_flowdata, tr.ipv6_flowdata⟩ ret
  else
    match vec_store tr.ipv6_flowdata ret flow_data with
    | none => .fault
    | some data => .fell_off ⟨tr.ipv4_map, res.1, tr.ipv4_flowdata, data⟩

/-- The call `add_flow(key, record)`: overload resolution on the key type. -/
def add_flow {H4 H6 T : Type} (ops4 : rte_hash_ops H4 ipv4_5tuple)
    (ops6 : rte_hash_ops H6 ipv6_5tuple) (tr : flowtracker H4 H6 T) :
    flow_tuple → T → Outcome (flowtracker H4 H6 T) Int
  | .ipv4 tpl, flow_data => add_flow_v4 ops4 tr tpl flow_data
  | .ipv6 tpl, flow_data => add_flow_v6 ops6 tr tpl flow_data

/-- The `int32_t` that the index of the key's family yields for an insert of
the key in the current state. -/
def index_insert {H4 H6 T : Type} (ops4 : rte_hash_ops H4 ipv4_5tuple)
    (ops6 : rte_hash_ops H6 ipv6_5tuple) (tr : flowtracker H4 H6 T) : flow_tuple → Int
  | .ipv4 tpl => (ops4.rte_hash_add_key tr.ipv4_map tpl).2
  | .ipv6 tpl => (ops6.rte_hash_add_key tr.ipv6_map tpl).2

/-- The overload `get_flow_data(const ipv4_5tuple&)`. -/
def get_flow_data_v4 {H4 H6 T : Type} (ops4 : rte_hash_ops H4 ipv4_5tuple)
    (tr : flowtracker H4 H6 T) (tpl : ipv4_5tuple) : flow_ptr :=
  let ret := ops4.rte_hash_lookup tr.ipv4_map tpl
  if ret < 0 then .null
  else
    match vec_at tr.ipv4_flowdata ret with
    | none => .fault
    | some i => .ipv4_slot i

/-- The record a `T*` from `get_flow_data` points to. -/
def flow_ptr.deref {H4 H6 T : Type} (tr : flowtracker H4 H6 T) : flow_ptr → Option T
  | .null => none
  | .ipv4_slot i => tr.ipv4_flowdata[i]?
  | .fault => none

/-- The member contents reached from `tr` through calls of `add_flow`: those
a call returns with and, so that no contents the body can write are left out,
those a call has written when it runs off the end of its body. -/
inductive Steps {H4 H6 T : Type} (ops4 : rte_hash_ops H4 ipv4_5tuple)
    (ops6 : rte_hash_ops H6 ipv6_5tuple) :
    flowtracker H4 H6 T → flowtracker H4 H6 T → Prop where
  | refl (tr : flowtracker H4 H6 T) : Steps ops4 ops6 tr tr
  | returned (tr tr1 tr2 : flowtracker H4 H6 T) (key : flow_tuple) (flow_data : T)
      (v : Int) :
      Steps ops4 ops6 tr tr1 →
      add_flow ops4 ops6 tr1 key flow_data = .returned tr2 v →
      Steps ops4 ops6 tr tr2
  | fell_off (tr tr1 tr2 : flowtracker H4 H6 T) (key : flow_tuple) (flow_data : T) :
      Steps ops4 ops6 tr tr1 →
      add_flow ops4 ops6 tr1 key flow_data = .fell_off tr2 →
      Steps ops4 ops6 tr tr2

/-! ## A reference hash index -/

/-- The errno value `ENOSPC`. -/
def ENOSPC : Int := 28

/-- The errno value `ENOENT`. -/
def ENOENT : Int := 2

/-- Modelled from the spec: the Hash Index of section 4.2, which the source
takes from the external `rte_hash` library. A table of `N` slots, each free or
holding one key; the slot index of a key is its position. -/
structure slot_table (K : Type) where
  slots : List (Option K)
  deriving DecidableEq

/-- The position of the first slot equal to `x`, counted from `base`. -/
def first_slot {K : Type} [DecidableEq K] (x : Option K) : List (Option K) → Nat → Option Nat
  | [], _ => none
  | y :: ys, base => if y = x then some base else first_slot x ys (base + 1)

/-- Modelled from the spec: `lookup(key) -> slot index or NotFound`. -/
def slot_table.lookup {K : Type} [DecidableEq K] (h : slot_table K) (key : K) : Int :=
  match first_slot (some key) h.slots 0 with
  | some i => (i : Int)
  | none => -ENOENT

/-- Modelled from the spec: `insert(key) -> slot index`; the existing slot for
a key already present, otherwise an unused slot, otherwise `CapacityExceeded`. -/
def slot_table.add_key {K : Type} [DecidableEq K] (h : slot_table K) (key : K) :
    slot_table K × Int :=
  match first_slot (some key) h.slots 0 with
  | some i => (h, (i : Int))
  | none =>
    match first_slot none h.slots 0 with
    | some j => (⟨h.slots.set j (some key)⟩, (j : Int))
    | none => (h, -ENOSPC)

/-- Modelled from the spec: a Hash Index of fixed capacity `entries`, empty at
construction. -/
def slot_table.create {K : Type} (params : rte_hash_parameters) : Option (slot_table K) :=
  some ⟨List.replicate params.entries none⟩

/-- Modelled from the spec: the Hash Index of section 4.2 as the index library
of a tracker. -/
def slot_table_ops (K : Type) [DecidableEq K] : rte_hash_ops (slot_table K) K :=
  ⟨slot_table.create, slot_table.add_key, slot_table.lookup⟩

/-! ## Concrete trackers -/

/-- A tracker of `foo_flow_data` records over the reference index. -/
abbrev tracker := flowtracker (slot_table ipv4_5tuple) (slot_table ipv6_5tuple) foo_flow_data

/-- Flow A: 10.0.0.1:1111 → 10.0.0.2:80, protocol 6. -/
def flow_A : ipv4_5tuple := ⟨167772162, 167772161, 80, 1111, 6⟩

/-- Flow B: 10.0.0.3:2222 → 10.0.0.4:443, protocol 6. -/
def flow_B : ipv4_5tuple := ⟨167772164, 167772163, 443, 2222, 6⟩

/-- Flow C: 10.0.0.5:3333 → 10.0.0.6:53, protocol 17. -/
def flow_C : ipv4_5tuple := ⟨167772166, 167772165, 53, 3333, 17⟩

/-- An IPv6 flow between ::1 port 1111 and ::2 port 80, protocol 6. -/
def flow_A6 : ipv6_5tuple :=
  ⟨[0, 0, 0, 0, 0, 0, 0, 0, 0, 0, 0, 0, 0, 0, 0, 2],
   [0, 0, 0, 0, 0, 0, 0, 0, 0, 0, 0, 0, 0, 0, 0, 1], 80, 1111, 6⟩

/-- The record `{start = 100, end = 100, ttl = 0}`. -/
def rec_100 : foo_flow_data := ⟨100, 100, 0⟩

/-- The record `{start = 200, end = 250, ttl = 64}`. -/
def rec_200 : foo_flow_data := ⟨200, 250, 64⟩

/-- The value-initialised record. -/
def rec_zero : foo_flow_data := ⟨0, 0, 0⟩

/-- An empty tracker of capacity 2. -/
def tracker_empty2 : tracker :=
  ⟨⟨[none, none]⟩, ⟨[none, none]⟩, [rec_zero, rec_zero], [rec_zero, rec_zero]⟩

/-- A tracker of capacity 2 holding flow A at slot 0 with `rec_100`. -/
def tracker_A : tracker :=
  ⟨⟨[some flow_A, none]⟩, ⟨[none, none]⟩, [rec_100, rec_zero], [rec_zero, rec_zero]⟩

/-- The tracker `tracker_A` after flow A's record is replaced by `rec_200`. -/
def tracker_A_200 : tracker :=
  ⟨⟨[some flow_A, none]⟩, ⟨[none, none]⟩, [rec_200, rec_zero], [rec_zero, rec_zero]⟩

/-- A full tracker of capacity 2: flow A at slot 0, flow B at slot 1. -/
def tracker_AB : tracker :=
  ⟨⟨[some flow_A, some flow_B]⟩, ⟨[none, none]⟩, [rec_100, rec_200], [rec_zero, rec_zero]⟩

/-! ### Arithmetic form of the bit operations -/

theorem PACKETS_MASK_eq : PACKETS_MASK = 2 ^ 28 - 1 := by
  unfold PACKETS_MASK UINT64_MOD
  norm_num [Nat.shiftLeft_eq]

theorem ttl_count_eq_mod (w : Nat) : ttl_count w = w % 2 ^ 28 := by
  unfold ttl_count
  rw [PACKETS_MASK_eq, Nat.and_pow_two_sub_one_eq_mod]

theorem ttl_sum_eq_div (w : Nat) : ttl_sum w = w / 2 ^ 28 := by
  unfold ttl_sum
  rw [Nat.shiftRight_eq_div_pow]

theorem get_average_TTL_eq (val : Nat) :
    get_average_TTL val =
      if val % 2 ^ 28 = 0 then none
      else some ((val / 2 ^ 28) / (val % 2 ^ 28) % 2 ^ 16) := by
  unfold get_average_TTL UINT16_MOD
  simp only [PACKETS_MASK_eq, Nat.and_pow_two_sub_one_eq_mod, Nat.shiftRight_eq_div_pow]

theorem update_TTL_eq (val new_ttl : Nat) :
    update_TTL val new_ttl = (val + new_ttl * 2 ^ 28 + 1) % 2 ^ 64 := by
  unfold update_TTL UINT64_MOD
  simp only [Nat.shiftLeft_eq]
  omega

/-- A word with sum field `S` and count field `n`, when both fit. -/
theorem update_TTL_packed (S n t : Nat) (hn : n + 1 < 2 ^ 28) (hS : S + t < 2 ^ 36) :
    update_TTL (S * 2 ^ 28 + n) t = (S + t) * 2 ^ 28 + (n + 1) := by
  rw [update_TTL_eq]
  have h : S * 2 ^ 28 + n + t * 2 ^ 28 + 1 = (S + t) * 2 ^ 28 + (n + 1) := by ring
  rw [h]
  apply Nat.mod_eq_of_lt
  omega

/-- Folding `update_TTL` over 8-bit TTLs keeps the two fields separate. -/
theorem foldl_update_TTL_packed (ttls : List Nat) :
    ∀ S n : Nat, (∀ t ∈ ttls, t ≤ 255) → n + ttls.length < 2 ^ 28 → S ≤ 255 * n →
      ttls.foldl update_TTL (S * 2 ^ 28 + n) =
        (S + ttls.sum) * 2 ^ 28 + (n + ttls.length) := by
  induction ttls with
  | nil => intro S n _ _ _; simp
  | cons t ts ih =>
    intro S n hall hlen hS
    have ht : t ≤ 255 := hall t (List.mem_cons_self _ _)
    have hts : ∀ x ∈ ts, x ≤ 255 := fun x hx => hall x (List.mem_cons_of_mem _ hx)
    simp only [List.length_cons] at hlen
    rw [List.foldl_cons, update_TTL_packed S n t (by omega) (by omega)]
    rw [ih (S + t) (n + 1) hts (by omega) (by omega)]
    simp only [List.sum_cons, List.length_cons]
    ring

theorem sum_le_of_forall_le (ttls : List Nat) (h : ∀ t ∈ ttls, t ≤ 255) :
    ttls.sum ≤ 255 * ttls.length := by
  induction ttls with
  | nil => simp
  | cons t ts ih =>
    have ht : t ≤ 255 := h t (List.mem_cons_self _ _)
    have := ih (fun x hx => h x (List.mem_cons_of_mem _ hx))
    simp only [List.sum_cons, List.length_cons]
    omega

/-! ### Claims on the TTL aggregate -/

/-- C6: for a non-empty sequence of TTLs, each in 0..255, of length below
2^28, folding `update_TTL` from the word 0 and calling `get_average_TTL`
returns the floor of the mean; the TTLs [64, 128, 32] give 74. -/
theorem ttl_fold_average (ttls : List Nat) (hne : ttls ≠ [])
    (hall : ∀ t ∈ ttls, t ≤ 255) (hlen : ttls.length < 2 ^ 28) :
    get_average_TTL (ttls.foldl update_TTL 0) = some (ttls.sum / ttls.length) ∧
      get_average_TTL ([64, 128, 32].foldl update_TTL 0) = some 74 := by
  have key : ∀ l : List Nat, l ≠ [] → (∀ t ∈ l, t ≤ 255) → l.length < 2 ^ 28 →
      get_average_TTL (l.foldl update_TTL 0) = some (l.sum / l.length) := by
    intro l hl hal hln
    have hp : 0 < l.length := List.length_pos.mpr hl
    have hs := sum_le_of_forall_le l hal
    have hfold := foldl_update_TTL_packed l 0 0 hal (by omega) (by omega)
    simp only [Nat.zero_mul, Nat.zero_add] at hfold
    rw [hfold, get_average_TTL_eq]
    have hmod : (l.sum * 2 ^ 28 + l.length) % 2 ^ 28 = l.length := by
      rw [Nat.mul_add_mod_of_lt hln]
    have hdiv : (l.sum * 2 ^ 28 + l.length) / 2 ^ 28 = l.sum := by
      rw [Nat.add_comm, Nat.add_mul_div_right _ _ (by norm_num), Nat.div_eq_of_lt hln,
        Nat.zero_add]
    rw [hmod, hdiv, if_neg (by omega)]
    have hq : l.sum / l.length ≤ 255 := by
      apply Nat.div_le_of_le_mul
      rw [Nat.mul_comm]; exact hs
    rw [Nat.mod_eq_of_lt (by omega)]
  refine ⟨key ttls hne hall hlen, ?_⟩
  have h := key [64, 128, 32] (by simp) (by decide) (by norm_num)
  simpa using h

theorem ttl_fold_average_witness :
    get_average_TTL ([64, 128, 32].foldl update_TTL 0) = some (([64, 128, 32] : List Nat).sum / 3) ∧
      get_average_TTL ([64, 128, 32].foldl update_TTL 0) = some 74 :=
  ttl_fold_average [64, 128, 32] (by decide) (by decide) (by norm_num)


/-- C7, as stated, fails: the word 2^64 - 2^28 has count field 0, and
`update_TTL` with `new_ttl = 1` wraps the 64-bit word, so the sum field of the
result is 0 and not `sum + 1 = 2^36`. -/
theorem update_TTL_sum_wraps :
    2 ^ 64 - 2 ^ 28 < 2 ^ 64 ∧ ttl_count (2 ^ 64 - 2 ^ 28) < 2 ^ 28 - 1 ∧ (1 : Nat) < 2 ^ 16 ∧
      ¬ (ttl_count (update_TTL (2 ^ 64 - 2 ^ 28) 1) = ttl_count (2 ^ 64 - 2 ^ 28) + 1 ∧
          ttl_sum (update_TTL (2 ^ 64 - 2 ^ 28) 1) = ttl_sum (2 ^ 64 - 2 ^ 28) + 1) := by
  simp only [ttl_count_eq_mod, ttl_sum_eq_div, update_TTL_eq]
  norm_num

/-- C7, amended: for every 64-bit word `w` whose count field is below
2^28 - 1 and every 16-bit `new_ttl`, `update_TTL w new_ttl` is a 64-bit word
whose count field is `count w + 1` and whose sum field is
`(sum w + new_ttl) mod 2^36`; it is `sum w + new_ttl` when that is below 2^36. -/
theorem update_TTL_fieldwise (w new_ttl : Nat) (_hw : w < 2 ^ 64)
    (hc : ttl_count w < 2 ^ 28 - 1) (_ht : new_ttl < 2 ^ 16) :
    update_TTL w new_ttl < 2 ^ 64 ∧
      ttl_count (update_TTL w new_ttl) = ttl_count w + 1 ∧
      ttl_sum (update_TTL w new_ttl) = (ttl_sum w + new_ttl) % 2 ^ 36 ∧
      (ttl_sum w + new_ttl < 2 ^ 36 →
        ttl_sum (update_TTL w new_ttl) = ttl_sum w + new_ttl) := by
  simp only [ttl_count_eq_mod, ttl_sum_eq_div, update_TTL_eq] at *
  refine ⟨by omega, by omega, by omega, fun h => by omega⟩

theorem update_TTL_fieldwise_witness :
    update_TTL (64 * 2 ^ 28 + 1) 128 < 2 ^ 64 ∧
      ttl_count (update_TTL (64 * 2 ^ 28 + 1) 128) = ttl_count (64 * 2 ^ 28 + 1) + 1 ∧
      ttl_sum (update_TTL (64 * 2 ^ 28 + 1) 128) = (ttl_sum (64 * 2 ^ 28 + 1) + 128) % 2 ^ 36 ∧
      (ttl_sum (64 * 2 ^ 28 + 1) + 128 < 2 ^ 36 →
        ttl_sum (update_TTL (64 * 2 ^ 28 + 1) 128) = ttl_sum (64 * 2 ^ 28 + 1) + 128) :=
  update_TTL_fieldwise (64 * 2 ^ 28 + 1) 128 (by norm_num)
    (by rw [ttl_count_eq_mod]; norm_num) (by norm_num)

/-- C8, as stated, fails: the word 2^44 + 1 has count 1 and sum 2^16, the
quotient is 65536, and `get_average_TTL` returns it as a `uint16_t`: 0. -/
theorem get_average_TTL_truncates :
    2 ^ 44 + 1 < 2 ^ 64 ∧ (2 ^ 44 + 1) &&& (2 ^ 28 - 1) ≠ 0 ∧
      get_average_TTL (2 ^ 44 + 1) = some 0 ∧
      ((2 ^ 44 + 1) >>> 28) / ((2 ^ 44 + 1) &&& (2 ^ 28 - 1)) = 65536 ∧
      get_average_TTL (2 ^ 44 + 1) ≠
        some (((2 ^ 44 + 1) >>> 28) / ((2 ^ 44 + 1) &&& (2 ^ 28 - 1))) := by
  simp only [get_average_TTL_eq, Nat.and_pow_two_sub_one_eq_mod, Nat.shiftRight_eq_div_pow]
  norm_num

/-- C8, amended: for every 64-bit word whose count field is non-zero,
`get_average_TTL` returns the quotient `(word >> 28) / (word & (2^28 - 1))`
reduced modulo 2^16, which is the quotient itself when it is below 2^16. -/
theorem get_average_TTL_quotient (word : Nat) (_hw : word < 2 ^ 64)
    (hc : word &&& (2 ^ 28 - 1) ≠ 0) :
    get_average_TTL word =
        some ((word >>> 28) / (word &&& (2 ^ 28 - 1)) % 2 ^ 16) ∧
      ((word >>> 28) / (word &&& (2 ^ 28 - 1)) < 2 ^ 16 →
        get_average_TTL word = some ((word >>> 28) / (word &&& (2 ^ 28 - 1)))) := by
  simp only [get_average_TTL_eq, Nat.and_pow_two_sub_one_eq_mod,
    Nat.shiftRight_eq_div_pow] at *
  rw [if_neg hc]
  refine ⟨rfl, fun h => ?_⟩
  rw [Nat.mod_eq_of_lt h]

theorem get_average_TTL_quotient_witness :
    get_average_TTL (224 * 2 ^ 28 + 3) =
        some (((224 * 2 ^ 28 + 3) >>> 28) / ((224 * 2 ^ 28 + 3) &&& (2 ^ 28 - 1)) % 2 ^ 16) ∧
      (((224 * 2 ^ 28 + 3) >>> 28) / ((224 * 2 ^ 28 + 3) &&& (2 ^ 28 - 1)) < 2 ^ 16 →
        get_average_TTL (224 * 2 ^ 28 + 3) =
          some (((224 * 2 ^ 28 + 3) >>> 28) / ((224 * 2 ^ 28 + 3) &&& (2 ^ 28 - 1)))) :=
  get_average_TTL_quotient (224 * 2 ^ 28 + 3) (by norm_num)
    (by rw [Nat.and_pow_two_sub_one_eq_mod]; norm_num)

/-- C9: the division of `get_average_TTL` is defined exactly on the words
whose low 28 bits are non-zero; on the zero word, and on every word whose low
28 bits are zero, the call has no result instead of the result 0. -/
theorem get_average_TTL_defined_iff (word : Nat) :
    ((get_average_TTL word).isSome ↔ word % 2 ^ 28 ≠ 0) ∧
      (word % 2 ^ 28 = 0 → get_average_TTL word = none) ∧
      get_average_TTL 0 = none ∧ get_average_TTL 0 ≠ some 0 := by
  simp only [get_average_TTL_eq]
  refine ⟨?_, ?_, by simp, by simp⟩
  · by_cases h : word % 2 ^ 28 = 0
    · simp [h]
    · simp [h]
  · intro h
    rw [if_pos h]


/-! ### Vector access and the two overloads of `add_flow` -/

theorem vec_at_of_bounds {T : Type} (v : List T) (i : Int) (h0 : 0 ≤ i)
    (hlt : i.toNat < v.length) : vec_at v i = some i.toNat := by
  unfold vec_at
  rw [if_pos ⟨h0, hlt⟩]

theorem vec_at_some {T : Type} (v : List T) (i : Int) (n : Nat)
    (h : vec_at v i = some n) : 0 ≤ i ∧ n = i.toNat ∧ n < v.length := by
  unfold vec_at at h
  by_cases hc : 0 ≤ i ∧ i.toNat < v.length
  · rw [if_pos hc] at h
    have hn : i.toNat = n := Option.some.inj h
    exact ⟨hc.1, hn.symm, hn ▸ hc.2⟩
  · rw [if_neg hc] at h
    cases h

theorem vec_store_some {T : Type} (v : List T) (i : Int) (x : T) (d : List T)
    (h : vec_store v i x = some d) :
    0 ≤ i ∧ i.toNat < v.length ∧ d = v.set i.toNat x := by
  unfold vec_store at h
  cases hv : vec_at v i with
  | none => rw [hv] at h; cases h
  | some n =>
    rw [hv] at h
    obtain ⟨h0, hn, hlt⟩ := vec_at_some v i n hv
    subst hn
    exact ⟨h0, hlt, (Option.some.inj h).symm⟩

theorem vec_store_of_bounds {T : Type} (v : List T) (i : Int) (x : T) (h0 : 0 ≤ i)
    (hlt : i.toNat < v.length) : vec_store v i x = some (v.set i.toNat x) := by
  unfold vec_store
  rw [vec_at_of_bounds v i h0 hlt]

/-- An IPv4 `add_flow` whose slot lies inside the vector performs the store and
reaches the end of the body. -/
theorem add_flow_v4_of_bounds {H4 H6 T : Type} (ops4 : rte_hash_ops H4 ipv4_5tuple)
    (tr : flowtracker H4 H6 T) (k : ipv4_5tuple) (r : T)
    (hs : 0 ≤ (ops4.rte_hash_add_key tr.ipv4_map k).2)
    (hlt : (ops4.rte_hash_add_key tr.ipv4_map k).2.toNat < tr.ipv4_flowdata.length) :
    add_flow_v4 ops4 tr k r =
      .fell_off ⟨(ops4.rte_hash_add_key tr.ipv4_map k).1, tr.ipv6_map,
        tr.ipv4_flowdata.set (ops4.rte_hash_add_key tr.ipv4_map k).2.toNat r,
        tr.ipv6_flowdata⟩ := by
  unfold add_flow_v4
  simp only [if_neg (not_lt.mpr hs), vec_store_of_bounds _ _ r hs hlt]

/-- An IPv6 `add_flow` whose slot lies inside the vector performs the store and
reaches the end of the body. -/
theorem add_flow_v6_of_bounds {H4 H6 T : Type} (ops6 : rte_hash_ops H6 ipv6_5tuple)
    (tr : flowtracker H4 H6 T) (k : ipv6_5tuple) (r : T)
    (hs : 0 ≤ (ops6.rte_hash_add_key tr.ipv6_map k).2)
    (hlt : (ops6.rte_hash_add_key tr.ipv6_map k).2.toNat < tr.ipv6_flowdata.length) :
    add_flow_v6 ops6 tr k r =
      .fell_off ⟨tr.ipv4_map, (ops6.rte_hash_add_key tr.ipv6_map k).1, tr.ipv4_flowdata,
        tr.ipv6_flowdata.set (ops6.rte_hash_add_key tr.ipv6_map k).2.toNat r⟩ := by
  unfold add_flow_v6
  simp only [if_neg (not_lt.mpr hs), vec_store_of_bounds _ _ r hs hlt]

/-- The IPv4 `get_flow_data` on a slot inside the vector. -/
theorem get_flow_data_v4_of_bounds {H4 H6 T : Type} (ops4 : rte_hash_ops H4 ipv4_5tuple)
    (tr : flowtracker H4 H6 T) (k : ipv4_5tuple)
    (hs : 0 ≤ ops4.rte_hash_lookup tr.ipv4_map k)
    (hlt : (ops4.rte_hash_lookup tr.ipv4_map k).toNat < tr.ipv4_flowdata.length) :
    get_flow_data_v4 ops4 tr k = .ipv4_slot (ops4.rte_hash_lookup tr.ipv4_map k).toNat := by
  unfold get_flow_data_v4
  simp only [if_neg (not_lt.mpr hs), vec_at_of_bounds _ _ hs hlt]


/-- The three ways the IPv4 `add_flow` ends: the return of a negative code,
the store followed by the end of the body, or the store outside the vector. -/
theorem add_flow_v4_cases {H4 H6 T : Type} (ops4 : rte_hash_ops H4 ipv4_5tuple)
    (tr : flowtracker H4 H6 T) (k : ipv4_5tuple) (r : T) :
    ((ops4.rte_hash_add_key tr.ipv4_map k).2 < 0 ∧
        add_flow_v4 ops4 tr k r =
          .returned ⟨(ops4.rte_hash_add_key tr.ipv4_map k).1, tr.ipv6_map,
            tr.ipv4_flowdata, tr.ipv6_flowdata⟩ (ops4.rte_hash_add_key tr.ipv4_map k).2) ∨
      (0 ≤ (ops4.rte_hash_add_key tr.ipv4_map k).2 ∧
        add_flow_v4 ops4 tr k r =
          .fell_off ⟨(ops4.rte_hash_add_key tr.ipv4_map k).1, tr.ipv6_map,
            tr.ipv4_flowdata.set (ops4.rte_hash_add_key tr.ipv4_map k).2.toNat r,
            tr.ipv6_flowdata⟩) ∨
      (0 ≤ (ops4.rte_hash_add_key tr.ipv4_map k).2 ∧ add_flow_v4 ops4 tr k r = .fault) := by
  by_cases hneg : (ops4.rte_hash_add_key tr.ipv4_map k).2 < 0
  · left
    refine ⟨hneg, ?_⟩
    unfold add_flow_v4
    simp only [if_pos hneg]
  · have hs : 0 ≤ (ops4.rte_hash_add_key tr.ipv4_map k).2 := not_lt.mp hneg
    by_cases hlt : (ops4.rte_hash_add_key tr.ipv4_map k).2.toNat < tr.ipv4_flowdata.length
    · exact Or.inr (Or.inl ⟨hs, add_flow_v4_of_bounds ops4 tr k r hs hlt⟩)
    · right; right
      refine ⟨hs, ?_⟩
      unfold add_flow_v4 vec_store vec_at
      simp only [if_neg hneg, if_neg (fun h => hlt (And.right h))]

/-- The three ways the IPv6 `add_flow` ends. -/
theorem add_flow_v6_cases {H4 H6 T : Type} (ops6 : rte_hash_ops H6 ipv6_5tuple)
    (tr : flowtracker H4 H6 T) (k : ipv6_5tuple) (r : T) :
    ((ops6.rte_hash_add_key tr.ipv6_map k).2 < 0 ∧
        add_flow_v6 ops6 tr k r =
          .returned ⟨tr.ipv4_map, (ops6.rte_hash_add_key tr.ipv6_map k).1,
            tr.ipv4_flowdata, tr.ipv6_flowdata⟩ (ops6.rte_hash_add_key tr.ipv6_map k).2) ∨
      (0 ≤ (ops6.rte_hash_add_key tr.ipv6_map k).2 ∧
        add_flow_v6 ops6 tr k r =
          .fell_off ⟨tr.ipv4_map, (ops6.rte_hash_add_key tr.ipv6_map k).1,
            tr.ipv4_flowdata,
            tr.ipv6_flowdata.set (ops6.rte_hash_add_key tr.ipv6_map k).2.toNat r⟩) ∨
      (0 ≤ (ops6.rte_hash_add_key tr.ipv6_map k).2 ∧ add_flow_v6 ops6 tr k r = .fault) := by
  by_cases hneg : (ops6.rte_hash_add_key tr.ipv6_map k).2 < 0
  · left
    refine ⟨hneg, ?_⟩
    unfold add_flow_v6
    simp only [if_pos hneg]
  · have hs : 0 ≤ (ops6.rte_hash_add_key tr.ipv6_map k).2 := not_lt.mp hneg
    by_cases hlt : (ops6.rte_hash_add_key tr.ipv6_map k).2.toNat < tr.ipv6_flowdata.length
    · exact Or.inr (Or.inl ⟨hs, add_flow_v6_of_bounds ops6 tr k r hs hlt⟩)
    · right; right
      refine ⟨hs, ?_⟩
      unfold add_flow_v6 vec_store vec_at
      simp only [if_neg hneg, if_neg (fun h => hlt (And.right h))]

/-! ### Claims on `add_flow` and `get_flow_data` -/

/-- On the success path neither overload of `add_flow` executes a `return`
statement: the call yields no value. -/
theorem add_flow_success_value {H4 H6 T : Type} (ops4 : rte_hash_ops H4 ipv4_5tuple)
    (ops6 : rte_hash_ops H6 ipv6_5tuple) (tr : flowtracker H4 H6 T) (key : flow_tuple)
    (r : T) (hs : 0 ≤ index_insert ops4 ops6 tr key) :
    (add_flow ops4 ops6 tr key r).value? = none := by
  cases key with
  | ipv4 k =>
    simp only [index_insert] at hs
    simp only [add_flow, add_flow_v4, if_neg (not_lt.mpr hs)]
    cases vec_store tr.ipv4_flowdata (ops4.rte_hash_add_key tr.ipv4_map k).2 r <;> rfl
  | ipv6 k =>
    simp only [index_insert] at hs
    simp only [add_flow, add_flow_v6, if_neg (not_lt.mpr hs)]
    cases vec_store tr.ipv6_flowdata (ops6.rte_hash_add_key tr.ipv6_map k).2 r <;> rfl

/-- On the success path neither overload of `add_flow` returns: whatever the
slot, the call has no state after it. -/
theorem add_flow_success_state {H4 H6 T : Type} (ops4 : rte_hash_ops H4 ipv4_5tuple)
    (ops6 : rte_hash_ops H6 ipv6_5tuple) (tr : flowtracker H4 H6 T) (key : flow_tuple)
    (r : T) (hs : 0 ≤ index_insert ops4 ops6 tr key) :
    (add_flow ops4 ops6 tr key r).state? = none := by
  cases key with
  | ipv4 k =>
    simp only [index_insert] at hs
    simp only [add_flow, add_flow_v4, if_neg (not_lt.mpr hs)]
    cases vec_store tr.ipv4_flowdata (ops4.rte_hash_add_key tr.ipv4_map k).2 r <;> rfl
  | ipv6 k =>
    simp only [index_insert] at hs
    simp only [add_flow, add_flow_v6, if_neg (not_lt.mpr hs)]
    cases vec_store tr.ipv6_flowdata (ops6.rte_hash_add_key tr.ipv6_map k).2 r <;> rfl

/-- C1, at the failing input: on the empty tracker of capacity 2 the index
insert of flow A yields slot 0 and a lookup of flow A after that insert yields
slot 0, so the conditions of the round trip hold. `add_flow` assigns the record
to slot 0 and then reaches the end of the function without a `return`
statement: the call yields no state in which `get_flow_data` could look the
record up. -/
theorem add_flow_roundtrip_undefined :
    ((slot_table_ops ipv4_5tuple).rte_hash_add_key tracker_empty2.ipv4_map flow_A).2 = 0 ∧
      (slot_table_ops ipv4_5tuple).rte_hash_lookup
        ((slot_table_ops ipv4_5tuple).rte_hash_add_key tracker_empty2.ipv4_map flow_A).1
        flow_A = 0 ∧
      add_flow_v4 (slot_table_ops ipv4_5tuple) tracker_empty2 flow_A rec_100
        = .fell_off tracker_A ∧
      tracker_A.ipv4_flowdata[0]? = some rec_100 ∧
      (add_flow_v4 (slot_table_ops ipv4_5tuple) tracker_empty2 flow_A rec_100).state?
        = none := by
  decide

/-- C2, at the failing input: on the empty tracker of capacity 2 the index
insert of flow A yields slot 0, and `add_flow` stores the record and reaches
the end of the function without returning a value; the same holds for the
IPv6 overload. -/
theorem add_flow_success_no_return :
    index_insert (slot_table_ops ipv4_5tuple) (slot_table_ops ipv6_5tuple) tracker_empty2
        (.ipv4 flow_A) = 0 ∧
      add_flow (slot_table_ops ipv4_5tuple) (slot_table_ops ipv6_5tuple) tracker_empty2
        (.ipv4 flow_A) rec_100 = .fell_off tracker_A ∧
      (add_flow (slot_table_ops ipv4_5tuple) (slot_table_ops ipv6_5tuple) tracker_empty2
        (.ipv4 flow_A) rec_100).value? = none ∧
      index_insert (slot_table_ops ipv4_5tuple) (slot_table_ops ipv6_5tuple) tracker_empty2
        (.ipv6 flow_A6) = 0 ∧
      (add_flow (slot_table_ops ipv4_5tuple) (slot_table_ops ipv6_5tuple) tracker_empty2
        (.ipv6 flow_A6) rec_100).value? = none := by
  decide

/-- C3, as stated, fails: in `tracker_A` flow A is present at slot 0 with
record `rec_100`; `add_flow(flow A, rec_200)` assigns slot 0 and leaves the
members as `tracker_A_200`, where the record of flow A, the one
`get_flow_data(flow A)` points to, is `rec_200` and not `rec_100`. -/
theorem add_flow_present_overwrites :
    get_flow_data_v4 (slot_table_ops ipv4_5tuple) tracker_A flow_A = .ipv4_slot 0 ∧
      (get_flow_data_v4 (slot_table_ops ipv4_5tuple) tracker_A flow_A).deref tracker_A
        = some rec_100 ∧
      add_flow_v4 (slot_table_ops ipv4_5tuple) tracker_A flow_A rec_200
        = .fell_off tracker_A_200 ∧
      tracker_A_200.ipv4_flowdata[0]? = some rec_200 ∧
      (get_flow_data_v4 (slot_table_ops ipv4_5tuple) tracker_A_200 flow_A).deref tracker_A_200
        = some rec_200 ∧
      (get_flow_data_v4 (slot_table_ops ipv4_5tuple) tracker_A_200 flow_A).deref tracker_A_200
        ≠ some rec_100 := by
  decide

/-- C3, amended: when key `k` is present at slot `s` with stored record `r0`
(a lookup of `k` yields `s ≥ 0` and `get_flow_data(k)` refers to `r0`) and the
index insert of `k` yields that slot `s`, `add_flow(k, r)` executes the
assignment `ipv4_flowdata[s] = r`: at the end of the function body the record
at slot `s`, which was `r0`, is `r`, the record at every other slot of the IPv4
store is unchanged, and the IPv6 store and index are unchanged. -/
theorem add_flow_present_stores {H4 H6 T : Type} (ops4 : rte_hash_ops H4 ipv4_5tuple)
    (tr : flowtracker H4 H6 T) (k : ipv4_5tuple) (r r0 : T) (s : Int)
    (hpres : ops4.rte_hash_lookup tr.ipv4_map k = s) (hs : 0 ≤ s)
    (hrec : (get_flow_data_v4 ops4 tr k).deref tr = some r0)
    (hins : (ops4.rte_hash_add_key tr.ipv4_map k).2 = s) :
    ∃ tr1, add_flow_v4 ops4 tr k r = .fell_off tr1 ∧
      tr.ipv4_flowdata[s.toNat]? = some r0 ∧
      tr1.ipv4_flowdata[s.toNat]? = some r ∧
      (∀ j, j ≠ s.toNat → tr1.ipv4_flowdata[j]? = tr.ipv4_flowdata[j]?) ∧
      tr1.ipv4_flowdata.length = tr.ipv4_flowdata.length ∧
      tr1.ipv6_flowdata = tr.ipv6_flowdata ∧ tr1.ipv6_map = tr.ipv6_map := by
  have hold : s.toNat < tr.ipv4_flowdata.length ∧ tr.ipv4_flowdata[s.toNat]? = some r0 := by
    unfold get_flow_data_v4 at hrec
    rw [hpres] at hrec
    simp only [if_neg (not_lt.mpr hs)] at hrec
    cases hv : vec_at tr.ipv4_flowdata s with
    | none => rw [hv] at hrec; cases hrec
    | some n =>
      rw [hv] at hrec
      obtain ⟨_, hn, hl⟩ := vec_at_some _ _ _ hv
      subst hn
      exact ⟨hl, hrec⟩
  obtain ⟨hlt, hr0⟩ := hold
  have hstep := add_flow_v4_of_bounds ops4 tr k r (hins ▸ hs) (hins ▸ hlt)
  rw [hins] at hstep
  refine ⟨_, hstep, hr0, ?_, ?_, List.length_set _ _ _, rfl, rfl⟩
  · show (tr.ipv4_flowdata.set s.toNat r)[s.toNat]? = some r
    rw [List.getElem?_set_self hlt]
  · intro j hj
    show (tr.ipv4_flowdata.set s.toNat r)[j]? = tr.ipv4_flowdata[j]?
    rw [List.getElem?_set_ne (Ne.symm hj)]

theorem add_flow_present_stores_witness :
    ∃ tr1, add_flow_v4 (slot_table_ops ipv4_5tuple) tracker_A flow_A rec_200
        = .fell_off tr1 ∧
      tracker_A.ipv4_flowdata[(0 : Int).toNat]? = some rec_100 ∧
      tr1.ipv4_flowdata[(0 : Int).toNat]? = some rec_200 ∧
      (∀ j, j ≠ (0 : Int).toNat → tr1.ipv4_flowdata[j]? = tracker_A.ipv4_flowdata[j]?) ∧
      tr1.ipv4_flowdata.length = tracker_A.ipv4_flowdata.length ∧
      tr1.ipv6_flowdata = tracker_A.ipv6_flowdata ∧ tr1.ipv6_map = tracker_A.ipv6_map :=
  add_flow_present_stores (slot_table_ops ipv4_5tuple) tracker_A flow_A rec_200 rec_100 0
    (by decide) (by decide) (by decide) (by decide)

/-- C4: a failed insert is atomic. When the index insert of the key (either
family) yields a negative code, `add_flow` returns that code and the records
of both data stores are unchanged. -/
theorem add_flow_failed_insert {H4 H6 T : Type} (ops4 : rte_hash_ops H4 ipv4_5tuple)
    (ops6 : rte_hash_ops H6 ipv6_5tuple) (tr : flowtracker H4 H6 T) (key : flow_tuple)
    (r : T) (hfail : index_insert ops4 ops6 tr key < 0) :
    ∃ tr1, add_flow ops4 ops6 tr key r = .returned tr1 (index_insert ops4 ops6 tr key) ∧
      tr1.ipv4_flowdata = tr.ipv4_flowdata ∧ tr1.ipv6_flowdata = tr.ipv6_flowdata := by
  cases key with
  | ipv4 k =>
    simp only [index_insert] at hfail ⊢
    exact ⟨⟨(ops4.rte_hash_add_key tr.ipv4_map k).1, tr.ipv6_map, tr.ipv4_flowdata,
      tr.ipv6_flowdata⟩, by simp only [add_flow, add_flow_v4, if_pos hfail], rfl, rfl⟩
  | ipv6 k =>
    simp only [index_insert] at hfail ⊢
    exact ⟨⟨tr.ipv4_map, (ops6.rte_hash_add_key tr.ipv6_map k).1, tr.ipv4_flowdata,
      tr.ipv6_flowdata⟩, by simp only [add_flow, add_flow_v6, if_pos hfail], rfl, rfl⟩

theorem add_flow_failed_insert_witness :
    ∃ tr1, add_flow (slot_table_ops ipv4_5tuple) (slot_table_ops ipv6_5tuple) tracker_AB
        (.ipv4 flow_C) rec_100
        = .returned tr1 (index_insert (slot_table_ops ipv4_5tuple) (slot_table_ops ipv6_5tuple)
            tracker_AB (.ipv4 flow_C)) ∧
      tr1.ipv4_flowdata = tracker_AB.ipv4_flowdata ∧
      tr1.ipv6_flowdata = tracker_AB.ipv6_flowdata :=
  add_flow_failed_insert (slot_table_ops ipv4_5tuple) (slot_table_ops ipv6_5tuple) tracker_AB
    (.ipv4 flow_C) rec_100 (by decide)

/-- C5, at the failing input: in `tracker_A` the index insert of flow B yields
slot 1; `add_flow` assigns the record to slot 1 and then reaches the end of the
function without a `return` statement, so the call yields no state after it
whose records could be compared with those before. The same holds for the
IPv6 overload on the empty tracker. -/
theorem add_flow_footprint_undefined :
    index_insert (slot_table_ops ipv4_5tuple) (slot_table_ops ipv6_5tuple) tracker_A
        (.ipv4 flow_B) = 1 ∧
      add_flow (slot_table_ops ipv4_5tuple) (slot_table_ops ipv6_5tuple) tracker_A
        (.ipv4 flow_B) rec_200 = .fell_off tracker_AB ∧
      (add_flow (slot_table_ops ipv4_5tuple) (slot_table_ops ipv6_5tuple) tracker_A
        (.ipv4 flow_B) rec_200).state? = none ∧
      index_insert (slot_table_ops ipv4_5tuple) (slot_table_ops ipv6_5tuple) tracker_empty2
        (.ipv6 flow_A6) = 0 ∧
      (add_flow (slot_table_ops ipv4_5tuple) (slot_table_ops ipv6_5tuple) tracker_empty2
        (.ipv6 flow_A6) rec_100).state? = none := by
  decide

/-! ### Construction and the bounds of the data stores -/

/-- What the constructor leaves behind when it does not panic. -/
theorem create_some {H4 H6 T : Type} (ops4 : rte_hash_ops H4 ipv4_5tuple)
    (ops6 : rte_hash_ops H6 ipv6_5tuple) (socket_id : Nat) (zero : T) (N : Nat)
    (tr0 : flowtracker H4 H6 T)
    (hctor : flowtracker.create ops4 ops6 socket_id zero N = some tr0) :
    ops4.rte_hash_create ⟨"ipv4_flow_map", N, sizeof_ipv4_5tuple, .rte_jhash, 0, socket_id⟩
        = some tr0.ipv4_map ∧
      ops6.rte_hash_create ⟨"ipv6_flow_map", N, sizeof_ipv6_5tuple, .rte_jhash, 0, socket_id⟩
        = some tr0.ipv6_map ∧
      tr0.ipv4_flowdata = List.replicate N zero ∧
      tr0.ipv6_flowdata = List.replicate N zero := by
  unfold flowtracker.create at hctor
  simp only at hctor
  cases h4 : ops4.rte_hash_create
      ⟨"ipv4_flow_map", N, sizeof_ipv4_5tuple, .rte_jhash, 0, socket_id⟩ with
  | none => rw [h4] at hctor; cases hctor
  | some m4 =>
    rw [h4] at hctor
    simp only at hctor
    cases h6 : ops6.rte_hash_create
        ⟨"ipv6_flow_map", N, sizeof_ipv6_5tuple, .rte_jhash, 0, socket_id⟩ with
    | none => rw [h6] at hctor; cases hctor
    | some m6 =>
      rw [h6] at hctor
      have ht := (Option.some.inj hctor).symm
      subst ht
      exact ⟨rfl, rfl, rfl, rfl⟩

/-- Neither overload of `add_flow` changes the length of a data store, whether
the call returns or runs off the end of its body. -/
theorem add_flow_length {H4 H6 T : Type} (ops4 : rte_hash_ops H4 ipv4_5tuple)
    (ops6 : rte_hash_ops H6 ipv6_5tuple) (tr tr1 : flowtracker H4 H6 T) (key : flow_tuple)
    (r : T)
    (hend : (∃ v, add_flow ops4 ops6 tr key r = .returned tr1 v) ∨
      add_flow ops4 ops6 tr key r = .fell_off tr1) :
    tr1.ipv4_flowdata.length = tr.ipv4_flowdata.length ∧
      tr1.ipv6_flowdata.length = tr.ipv6_flowdata.length := by
  cases key with
  | ipv4 k =>
    simp only [add_flow] at hend
    rcases add_flow_v4_cases ops4 tr k r with ⟨_, hc⟩ | ⟨_, hc⟩ | ⟨_, hc⟩
    · rw [hc] at hend
      rcases hend with ⟨v, hv⟩ | hv
      · cases hv; exact ⟨rfl, rfl⟩
      · cases hv
    · rw [hc] at hend
      rcases hend with ⟨v, hv⟩ | hv
      · cases hv
      · cases hv; exact ⟨List.length_set _ _ _, rfl⟩
    · rw [hc] at hend
      rcases hend with ⟨v, hv⟩ | hv
      · cases hv
      · cases hv
  | ipv6 k =>
    simp only [add_flow] at hend
    rcases add_flow_v6_cases ops6 tr k r with ⟨_, hc⟩ | ⟨_, hc⟩ | ⟨_, hc⟩
    · rw [hc] at hend
      rcases hend with ⟨v, hv⟩ | hv
      · cases hv; exact ⟨rfl, rfl⟩
      · cases hv
    · rw [hc] at hend
      rcases hend with ⟨v, hv⟩ | hv
      · cases hv
      · cases hv; exact ⟨rfl, List.length_set _ _ _⟩
    · rw [hc] at hend
      rcases hend with ⟨v, hv⟩ | hv
      · cases hv
      · cases hv

/-- All member contents reached through `add_flow` calls have data stores of
the length they had at the start. -/
theorem steps_length {H4 H6 T : Type} (ops4 : rte_hash_ops H4 ipv4_5tuple)
    (ops6 : rte_hash_ops H6 ipv6_5tuple) (tr0 tr : flowtracker H4 H6 T)
    (hsteps : Steps ops4 ops6 tr0 tr) :
    tr.ipv4_flowdata.length = tr0.ipv4_flowdata.length ∧
      tr.ipv6_flowdata.length = tr0.ipv6_flowdata.length := by
  induction hsteps with
  | refl => exact ⟨rfl, rfl⟩
  | returned tr1 tr2 key r v _ hret ih =>
    obtain ⟨h4, h6⟩ := add_flow_length ops4 ops6 tr1 tr2 key r (Or.inl ⟨v, hret⟩)
    exact ⟨h4.trans ih.1, h6.trans ih.2⟩
  | fell_off tr1 tr2 key r _ hoff ih =>
    obtain ⟨h4, h6⟩ := add_flow_length ops4 ops6 tr1 tr2 key r (Or.inr hoff)
    exact ⟨h4.trans ih.1, h6.trans ih.2⟩

/-- C10: slots are valid array indices. For a tracker constructed with
`max_flows = N`, both indices are created with `entries = N`, and whatever
`add_flow` calls have written since, both data stores hold exactly `N`
records; so for every slot `s` with `0 ≤ s < N` the indexed access at `s` is
inside both stores, an `add_flow` whose index insert yields `s` performs its
store without fault and reaches the end of its body, and a `get_flow_data`
whose lookup yields `s` is the address of slot `s`. -/
theorem slots_in_bounds {H4 H6 T : Type} (ops4 : rte_hash_ops H4 ipv4_5tuple)
    (ops6 : rte_hash_ops H6 ipv6_5tuple) (socket_id : Nat) (zero : T) (N : Nat)
    (tr0 tr : flowtracker H4 H6 T)
    (hctor : flowtracker.create ops4 ops6 socket_id zero N = some tr0)
    (hsteps : Steps ops4 ops6 tr0 tr) :
    (∃ p4 p6 : rte_hash_parameters, p4.entries = N ∧ p6.entries = N ∧
        ops4.rte_hash_create p4 = some tr0.ipv4_map ∧
        ops6.rte_hash_create p6 = some tr0.ipv6_map) ∧
      tr.ipv4_flowdata.length = N ∧ tr.ipv6_flowdata.length = N ∧
      ∀ s : Int, 0 ≤ s → s < N →
        vec_at tr.ipv4_flowdata s = some s.toNat ∧
        vec_at tr.ipv6_flowdata s = some s.toNat ∧
        (∀ key r, index_insert ops4 ops6 tr key = s →
          add_flow ops4 ops6 tr key r ≠ .fault ∧
          ∃ tr1, add_flow ops4 ops6 tr key r = .fell_off tr1) ∧
        (∀ k, ops4.rte_hash_lookup tr.ipv4_map k = s →
          get_flow_data_v4 ops4 tr k = .ipv4_slot s.toNat) := by
  obtain ⟨hc4, hc6, hd4, hd6⟩ := create_some ops4 ops6 socket_id zero N tr0 hctor
  obtain ⟨hl4, hl6⟩ := steps_length ops4 ops6 tr0 tr hsteps
  have hlen4 : tr.ipv4_flowdata.length = N := by
    rw [hl4, hd4, List.length_replicate]
  have hlen6 : tr.ipv6_flowdata.length = N := by
    rw [hl6, hd6, List.length_replicate]
  refine ⟨⟨_, _, rfl, rfl, hc4, hc6⟩, hlen4, hlen6, ?_⟩
  intro s hs0 hsN
  have hnat : s.toNat < N := by omega
  refine ⟨vec_at_of_bounds _ _ hs0 (hlen4 ▸ hnat), vec_at_of_bounds _ _ hs0 (hlen6 ▸ hnat),
    ?_, ?_⟩
  · intro key r hkey
    cases key with
    | ipv4 k =>
      simp only [index_insert] at hkey
      have h := add_flow_v4_of_bounds ops4 tr k r (hkey ▸ hs0)
        (by rw [hkey, hlen4]; exact hnat)
      simp only [add_flow, h]
      exact ⟨Outcome.noConfusion, _, rfl⟩
    | ipv6 k =>
      simp only [index_insert] at hkey
      have h := add_flow_v6_of_bounds ops6 tr k r (hkey ▸ hs0)
        (by rw [hkey, hlen6]; exact hnat)
      simp only [add_flow, h]
      exact ⟨Outcome.noConfusion, _, rfl⟩
  · intro k hk
    have h := get_flow_data_v4_of_bounds ops4 tr k (hk ▸ hs0)
      (by rw [hk, hlen4]; exact hnat)
    rw [hk] at h
    exact h

theorem slots_in_bounds_witness :
    (∃ p4 p6 : rte_hash_parameters, p4.entries = 2 ∧ p6.entries = 2 ∧
        (slot_table_ops ipv4_5tuple).rte_hash_create p4 = some tracker_empty2.ipv4_map ∧
        (slot_table_ops ipv6_5tuple).rte_hash_create p6 = some tracker_empty2.ipv6_map) ∧
      tracker_A.ipv4_flowdata.length = 2 ∧ tracker_A.ipv6_flowdata.length = 2 ∧
      ∀ s : Int, 0 ≤ s → s < (2 : Nat) →
        vec_at tracker_A.ipv4_flowdata s = some s.toNat ∧
        vec_at tracker_A.ipv6_flowdata s = some s.toNat ∧
        (∀ key r, index_insert (slot_table_ops ipv4_5tuple) (slot_table_ops ipv6_5tuple)
            tracker_A key = s →
          add_flow (slot_table_ops ipv4_5tuple) (slot_table_ops ipv6_5tuple) tracker_A key r
            ≠ .fault ∧
          ∃ tr1, add_flow (slot_table_ops ipv4_5tuple) (slot_table_ops ipv6_5tuple) tracker_A
            key r = .fell_off tr1) ∧
        (∀ k, (slot_table_ops ipv4_5tuple).rte_hash_lookup tracker_A.ipv4_map k = s →
          get_flow_data_v4 (slot_table_ops ipv4_5tuple) tracker_A k = .ipv4_slot s.toNat) :=
  slots_in_bounds (slot_table_ops ipv4_5tuple) (slot_table_ops ipv6_5tuple) 0 rec_zero 2
    tracker_empty2 tracker_A (by decide)
    (Steps.fell_off tracker_empty2 tracker_empty2 tracker_A (.ipv4 flow_A) rec_100
      (Steps.refl tracker_empty2) (by decide))

/-! ### The reference index meets the contract the claims assume -/

theorem first_slot_bounds {K : Type} [DecidableEq K] (x : Option K) (l : List (Option K)) :
    ∀ base i : Nat, first_slot x l base = some i → base ≤ i ∧ i < base + l.length := by
  induction l with
  | nil => intro base i h; cases h
  | cons y ys ih =>
    intro base i h
    unfold first_slot at h
    by_cases hy : y = x
    · rw [if_pos hy] at h
      have hi : base = i := Option.some.inj h
      simp only [List.length_cons]
      omega
    · rw [if_neg hy] at h
      have := ih (base + 1) i h
      simp only [List.length_cons]
      omega

/-- The reference index hands out only slots below its capacity, and an
insert of a key that is present yields the slot of the lookup and leaves the
index as it is. -/
theorem slot_table_contract {K : Type} [DecidableEq K] (h : slot_table K) (key : K) :
    (h.add_key key).2 < h.slots.length ∧ h.lookup key < h.slots.length ∧
      (0 ≤ h.lookup key → h.add_key key = (h, h.lookup key)) := by
  unfold slot_table.add_key slot_table.lookup
  cases hk : first_slot (some key) h.slots 0 with
  | some i =>
    have hb := first_slot_bounds (some key) h.slots 0 i hk
    simp only
    refine ⟨by omega, by omega, fun _ => trivial⟩
  | none =>
    simp only
    refine ⟨?_, ?_, ?_⟩
    · cases hf : first_slot none h.slots 0 with
      | some j =>
        have hb := first_slot_bounds none h.slots 0 j hf
        simp only
        omega
      | none =>
        simp only [ENOSPC]
        omega
    · simp only [ENOENT]
      omega
    · intro hneg
      simp only [ENOENT] at hneg
      omega

end FlowScope
